import Mathlib

/-!
Verification of `list_phones_by_processor.py`.

Shallow embedding of the crawl core of the repository
`kimovil_list_phones_by_processor` (single source file
`src/list_phones_by_processor.py`), together with theorems settling the
frozen claims about its specification.

Modelling conventions:

* HTML fragments are represented by their parsed DOM forests (`List Node`);
  the BeautifulSoup parser itself is an external collaborator, so
  `filter_response` (source lines 138-181) operates on the parsed tree.
  An element's attributes are an association list; attribute matching is
  string equality of the attribute value.
* Python strings are Lean `String`s; `str.split(' ', 1)`, `str.strip`,
  `'.' in s`, `s.split('.')[-1]` and `int(s)` are modelled character-wise
  (`pySplit1`, `trimChars`, `containsDot`, `last_dot_component`, `pyInt?`).
  `int()`'s acceptance of underscore digit grouping is not modelled; no
  claim depends on it.
* The global `progress_data` dictionary (source lines 36-43) is the
  `ProgressData` record threaded through `fill_proc_pages`; the two
  presentation-only fields `current_processor` / `current_band` are
  omitted (they are written but never read by the crawl core).
* The network is an oracle: `fill_proc_pages` consumes a finite list of
  stubbed `FetchResponse`s, one per attempt, and stops when the stub list
  is exhausted (every theorem supplies the whole finite scenario).
  The trace of issued requests (page index and URL) is returned so that
  theorems can speak about which fetches were performed.
* Python `dict` assignment `d[k] = v` is `assocInsert` / `dictInsert`
  (update the value in place if the key exists, else append);
  `list(set(xs))` is `List.dedup` (the snapshot theorems only use it up
  to equality of the underlying page stores); `sorted(xs)` and
  `xs.sort(key=...)` are the stable insertion sort `insSort`.
-/

/-- The four run counters of the global `progress_data` dictionary
(source lines 36-43). -/
structure ProgressData where
  pages_fetched : Nat
  total_requests : Nat
  rate_limited : Nat
  errors : Nat
deriving Repr, DecidableEq

/-- A parsed DOM node: an element with attributes and children, or a
text node. -/
inductive Node where
  | elem : List (String × String) → List Node → Node
  | text : String → Node

/-- Attribute lookup on an association list (Python `dict` access;
attribute keys are unique in a parsed element). -/
def attrLookup : List (String × String) → String → Option String
  | [], _ => none
  | (k, v) :: rest, a => if k = a then some v else attrLookup rest a

/-- Python `element.get(attr, '')`: the attribute value of an element, with the
default `''` used by line 176 of the source; text nodes have no
attributes. -/
def attrGetD (n : Node) (a : String) : String :=
  match n with
  | Node.elem attrs _ => (attrLookup attrs a).getD ""
  | Node.text _ => ""

/-- The children of a node (a text node has none). -/
def childrenOf : Node → List Node
  | Node.elem _ cs => cs
  | Node.text _ => []

mutual
/-- All elements of a node's subtree (the node included) whose attribute
`a` equals `v`, in document (pre-)order: `find_all` of source line 161. -/
def findAllNode (a v : String) : Node → List Node
  | Node.text _ => []
  | Node.elem attrs cs =>
      (if attrLookup attrs a = some v then [Node.elem attrs cs] else [])
        ++ findAllForest a v cs

/-- Extension of `findAllNode` to a forest, in document order. -/
def findAllForest (a v : String) : List Node → List Node
  | [] => []
  | n :: ns => findAllNode a v n ++ findAllForest a v ns
end

/-- The loop of source lines 167-169: descend `child_level` times into the
first child, staying put when there is no child
(`next(iter(target_element.children), target_element)`). -/
def descend : Nat → Node → Node
  | 0, n => n
  | k + 1, n =>
      match childrenOf n with
      | [] => descend k n
      | c :: _ => descend k c

/-- Python `str.strip` on the character list of a string. -/
def trimChars (l : List Char) : List Char :=
  ((l.dropWhile Char.isWhitespace).reverse.dropWhile Char.isWhitespace).reverse

mutual
/-- The text strings contained in a node's subtree, in document order. -/
def nodeStrings : Node → List String
  | Node.text s => [s]
  | Node.elem _ cs => forestStrings cs

/-- Extension of `nodeStrings` to a forest. -/
def forestStrings : List Node → List String
  | [] => []
  | n :: ns => nodeStrings n ++ forestStrings ns
end

/-- Model of `get_text(strip=True)` (source line 172): the concatenation of the
individually stripped text strings of the subtree. -/
def get_text_strip (n : Node) : String :=
  String.join ((nodeStrings n).map (fun s => String.mk (trimChars s.data)))

/-- The trimmed descended text a match contributes (source lines 164-172):
descend `child_level` first children, then take the stripped text. -/
def matchText (child_level : Nat) (e : Node) : String :=
  get_text_strip (descend child_level e)

/-- Model of `filter_response` with `attr_to_add=None` (source lines 138-181,
list branch): the loop appends each match's trimmed descended text,
skipping empty text. -/
def filter_response_texts (html : List Node) (attr_filter attr_filter_value : String)
    (child_level : Nat) : List String :=
  (findAllForest attr_filter attr_filter_value html).foldl
    (fun acc e =>
      let t := matchText child_level e
      if t ≠ "" then acc ++ [t] else acc) []

/-- Python dict assignment `d[k] = v`: update the value in place when the
key is present, append otherwise. -/
def dictInsert (d : List (String × String)) (k v : String) : List (String × String) :=
  match d with
  | [] => [(k, v)]
  | (k', v') :: rest => if k' = k then (k', v) :: rest else (k', v') :: dictInsert rest k v

/-- Python dict lookup. -/
def dictLookup (d : List (String × String)) (k : String) : Option String :=
  match d with
  | [] => none
  | (k', v) :: rest => if k' = k then some v else dictLookup rest k

/-- Model of `filter_response` with `attr_to_add` given (source lines 155-177, dict
branch): map each match's nonempty trimmed descended text to the
`attr_to_add` attribute of the original matched element. -/
def filter_response_attrs (html : List Node) (attr_filter attr_filter_value : String)
    (child_level : Nat) (attr_to_add : String) : List (String × String) :=
  (findAllForest attr_filter attr_filter_value html).foldl
    (fun acc e =>
      let t := matchText child_level e
      if t ≠ "" then dictInsert acc t (attrGetD e attr_to_add) else acc) []

/-- Model of `filter_response` (source lines 138-181): the `Union[List[str],
Dict[str, str]]` return is a sum, split over the two branches above. -/
def filter_response (html : List Node) (attr_filter attr_filter_value : String)
    (child_level : Nat) (attr_to_add : Option String) :
    List String ⊕ List (String × String) :=
  match attr_to_add with
  | none => Sum.inl (filter_response_texts html attr_filter attr_filter_value child_level)
  | some a => Sum.inr (filter_response_attrs html attr_filter attr_filter_value child_level a)

/-! ## CSV rows (`append_processor_to_csv`, source lines 475-514) -/

/-- One output row: columns Processor, Brand, Model, Full_Name
(source lines 498-503). -/
structure CsvRow where
  processor : String
  brand : String
  model : String
  full_name : String
deriving Repr, DecidableEq

/-- Python `s.split(' ', 1)` on the character list: the part before the
first space and the part after it, or `none` when no space occurs. -/
def pySplit1Chars : List Char → Option (List Char × List Char)
  | [] => none
  | c :: cs =>
      if c = ' ' then some ([], cs)
      else (pySplit1Chars cs).map (fun p => (c :: p.1, p.2))

/-- Python `model.split(' ', 1)` (source line 494). -/
def pySplit1 (s : String) : List String :=
  match pySplit1Chars s.data with
  | none => [s]
  | some (a, b) => [String.mk a, String.mk b]

/-- The row built for one model name (source lines 494-503):
`brand = parts[0] if parts else 'Unknown'`,
`model_name = parts[1] if len(parts) > 1 else model`. -/
def csv_row_for (proc_name model : String) : CsvRow :=
  let parts := pySplit1 model
  { processor := proc_name
    brand := match parts with | [] => "Unknown" | b :: _ => b
    model := match parts with | _ :: m :: _ => m | _ => model
    full_name := model }

/-- Stable insertion of `x` into `l` under `le` (`x` goes before the first
element it is `le`-below-or-equal, so earlier elements with equal keys
stay earlier: Python's stable `sorted`/`list.sort`). -/
def insertLe (le : α → α → Bool) (x : α) : List α → List α
  | [] => [x]
  | y :: ys => if le x y then x :: y :: ys else y :: insertLe le x ys

/-- Stable insertion sort, modelling Python `sorted` / `list.sort`. -/
def insSort (le : α → α → Bool) (l : List α) : List α :=
  l.foldr (insertLe le) []

/-- Python string `<=` (code-point lexicographic). -/
def strLe (a b : String) : Bool := a ≤ b

/-- The `key=lambda x: (x['Brand'], x['Model'])` comparison of source
line 506 (Python tuple order). -/
def rowLe (a b : CsvRow) : Bool :=
  a.brand < b.brand ∨ (a.brand = b.brand ∧ a.model ≤ b.model)

/-- Model of `append_processor_to_csv` (source lines 475-514), returning the rows
appended to the file: nothing for an empty batch; otherwise the batch is
deduplicated and sorted (`sorted(set(proc_models))`, line 492), turned
into rows, and sorted by (Brand, Model) (line 506). -/
def append_processor_to_csv (proc_name : String) (proc_models : List String) :
    List CsvRow :=
  if proc_models = [] then []
  else insSort rowLe ((insSort strLe proc_models.dedup).map (csv_row_for proc_name))

/-! ## The Sink: per-page store plus incremental CSV append
(source lines 257-267), and the snapshot of source lines 437-446. -/

/-- Association-list insert with an `Int` key, modelling the Python dict
assignment `proc_list[proc_name][band_filter][start_page] = content`
(source line 258). -/
def assocInsert (l : List (Int × List Node)) (k : Int) (v : List Node) :
    List (Int × List Node) :=
  match l with
  | [] => [(k, v)]
  | (k', v') :: rest =>
      if k' = k then (k', v) :: rest else (k', v') :: assocInsert rest k v

/-- The Sink's state for one (processor, band) Query: the raw-page cache
keyed by page index, and the rows appended to the CSV file so far. -/
structure SinkState where
  pages : List (Int × List Node)
  csvRows : List CsvRow

/-- One Sink feed (source lines 257-267): store the raw content under the
page index, then — when a CSV file is configured and the content is truthy
— extract the page's models (`filter_response(content, 'class',
'device-name', 1)`, line 263) and, if any, append the batch built by
`append_processor_to_csv`.  (The `pages_fetched` increment of line 259
sits between the two steps but touches `progress_data`, not the Sink.) -/
def sink_record (csvEnabled : Bool) (proc_name : String) (start_page : Int)
    (content : List Node) (s : SinkState) : SinkState :=
  let s1 : SinkState := { s with pages := assocInsert s.pages start_page content }
  if csvEnabled && !content.isEmpty then
    let page_models := filter_response_texts content "class" "device-name" 1
    if page_models ≠ [] then
      { s1 with csvRows := s1.csvRows ++ append_processor_to_csv proc_name page_models }
    else s1
  else s1

/-- The deduplicated set of models seen so far for the Query
(`get_proc_phone_models` loop, source lines 437-446: extract every stored
page and `list(set(arr))`). -/
def snapshot (s : SinkState) : List String :=
  ((s.pages.map Prod.snd).map
      (fun c => filter_response_texts c "class" "device-name" 1)).flatten.dedup

/-! ## The Fetcher oracle and the Paginator (`fill_proc_pages`,
source lines 184-283). -/

/-- The JSON body of one paginated response: fields `page_results`,
`content` (its parsed DOM forest; Python truthiness of the HTML string is
`content ≠ []`) and `next_page_url` (`''` when absent, line 274). -/
structure PageJson where
  page_results : Nat
  content : List Node
  next_page_url : String

/-- One stubbed fetch: the HTTP status, and the decoded JSON body
(`none` models a 200 body that fails `json.loads`, lines 245-251). -/
structure FetchResponse where
  status : Nat
  body : Option PageJson

/-- Python `'.' in next_page_url` (source line 275). -/
def containsDot (s : String) : Bool := s.data.any (fun c => c = '.')

/-- Python `next_page_url.split('.')[-1]`: the characters after the last
`'.'` (the whole string when it has no `'.'`). -/
def last_dot_component (s : String) : String :=
  String.mk ((s.data.reverse.takeWhile (fun c => c ≠ '.')).reverse)

/-- The digits of a nonempty all-digit character list, else `none`. -/
def digitsToNat? (ds : List Char) : Option Nat :=
  if ds ≠ [] ∧ ds.all Char.isDigit then
    some (ds.foldl (fun n c => n * 10 + (c.toNat - '0'.toNat)) 0)
  else none

/-- Python `int(s)` (source line 276): strip whitespace, optional sign,
then a nonempty digit string; `none` models the `ValueError` it raises
otherwise. -/
def pyInt? (s : String) : Option Int :=
  match trimChars s.data with
  | '-' :: ds => (digitsToNat? ds).map (fun n => -(n : Int))
  | '+' :: ds => (digitsToNat? ds).map (fun n => (n : Int))
  | ds => (digitsToNat? ds).map (fun n => (n : Int))

/-- The URL built for a page index (source lines 204-219): the band
suffix `,band` when the band filter is nonempty, then for `start_page > 0`
the page component `,page.(start_page+1)`, then `?xhr=1`. -/
def url_for (procId band : String) (start_page : Int) : String :=
  let band_str := if band ≠ "" then "," ++ band else ""
  let suffix :=
    if start_page > 0 then band_str ++ ",page." ++ toString (start_page + 1) ++ "?xhr=1"
    else band_str ++ "?xhr=1"
  "https://www.kimovil.com/en/compare-smartphones/f_dpg+id." ++ procId ++ suffix

/-- The outcome of one Query's pagination: the final counters, the final
Sink state, and the trace of issued requests (page index and URL). -/
structure FillResult where
  st : ProgressData
  sink : SinkState
  requests : List (Int × String)

/-- Model of `fill_proc_pages` (source lines 184-283) driven by a finite response
oracle, one response per attempt (recursion stops when the oracle is
exhausted).  Branches, in source order: 429 → `rate_limited += 1` and
retry at the same index (lines 228-233); non-200 → `errors += 1`, stop
(235-238); undecodable body → `errors += 1`, stop (245-251);
`page_results == 0` → stop with no counter change (253-255); otherwise
store the page, `pages_fetched += 1`, append to CSV (257-267), and follow
`next_page_url` (274-278): recurse at `int(suffix) - 1` when the pointer
is nonempty and contains `'.'` with an integer suffix; a non-integer
suffix makes `int()` raise, which the handler of lines 280-283 records as
`errors += 1`; otherwise stop. -/
def fill_proc_pages (proc_name procId band : String) (csvEnabled : Bool) :
    List FetchResponse → Int → ProgressData → SinkState → List (Int × String) →
    FillResult
  | [], _, st, sink, reqs => ⟨st, sink, reqs⟩
  | r :: rest, start_page, st, sink, reqs =>
    let st1 : ProgressData := { st with total_requests := st.total_requests + 1 }
    let reqs1 := reqs ++ [(start_page, url_for procId band start_page)]
    if r.status = 429 then
      fill_proc_pages proc_name procId band csvEnabled rest start_page
        { st1 with rate_limited := st1.rate_limited + 1 } sink reqs1
    else if r.status ≠ 200 then
      ⟨{ st1 with errors := st1.errors + 1 }, sink, reqs1⟩
    else
      match r.body with
      | none => ⟨{ st1 with errors := st1.errors + 1 }, sink, reqs1⟩
      | some j =>
        if j.page_results = 0 then ⟨st1, sink, reqs1⟩
        else
          let st2 : ProgressData := { st1 with pages_fetched := st1.pages_fetched + 1 }
          let sink1 := sink_record csvEnabled proc_name start_page j.content sink
          if j.next_page_url ≠ "" ∧ containsDot j.next_page_url then
            match pyInt? (last_dot_component j.next_page_url) with
            | none => ⟨{ st2 with errors := st2.errors + 1 }, sink1, reqs1⟩
            | some n =>
                fill_proc_pages proc_name procId band csvEnabled rest (n - 1)
                  st2 sink1 reqs1
          else ⟨st2, sink1, reqs1⟩

/-! ## The Orchestrator's fail-fast validation (`main`,
source lines 766-780). -/

/-- Whether a processor name resolves in the discovered catalog
(`proc in processors_list`, source line 770). -/
def inCatalog (catalog : List (String × String)) (p : String) : Bool :=
  catalog.any (fun kv => kv.1 = p)

/-- The full list of configured processors absent from the catalog, in
configuration order (the loop of source lines 769-773). -/
def missing_processors (processors : List String)
    (catalog : List (String × String)) : List String :=
  processors.filter (fun p => ¬ inCatalog catalog p)

/-- What `main` does after discovery: abort (with an exit code, the
reported names, and the number of paginated fetches and written rows at
abort time) or proceed to crawling with the resolved processors. -/
inductive MainOutcome where
  | abort (exit_code : Nat) (reported : List String)
      (paginated_requests : Nat) (rows_written : Nat)
  | proceed (resolved : List String)

/-- Source lines 766-780: build `missing_processors`; when nonempty,
print every missing name and `sys.exit(1)`.  The exit precedes both
`create_csv_file` (line 810) and `fill_all_proc_pages` (line 815), so at
abort time zero paginated requests have been issued and zero rows
written — recorded here as the two `0` fields. -/
def main_resolve (processors : List String) (catalog : List (String × String)) :
    MainOutcome :=
  let missing := missing_processors processors catalog
  if missing ≠ [] then MainOutcome.abort 1 missing 0 0
  else MainOutcome.proceed (processors.filter (inCatalog catalog))


/-! ## Extractor lemmas -/

/-- The text-collecting fold of `filter_response` keeps, in document
order, exactly the nonempty trimmed texts of the matches. -/
theorem filter_response_texts_eq (html : List Node) (a v : String) (lvl : Nat) :
    filter_response_texts html a v lvl
      = ((findAllForest a v html).map (matchText lvl)).filter (fun t => t ≠ "") := by
  unfold filter_response_texts
  generalize findAllForest a v html = es
  suffices h : ∀ (es : List Node) (acc : List String),
      es.foldl (fun acc e =>
          let t := matchText lvl e
          if t ≠ "" then acc ++ [t] else acc) acc
        = acc ++ (es.map (matchText lvl)).filter (fun t => t ≠ "") by
    simpa using h es []
  intro es
  induction es with
  | nil => intro acc; simp
  | cons e tl ih =>
      intro acc
      rw [List.foldl_cons, ih]
      by_cases htext : matchText lvl e = ""
      · simp [htext]
      · simp [htext]

/-- C6: for a fragment with N elements whose attribute equals the given
value, `extract` (`filter_response` without `collectAttribute`) keeps the
matches' trimmed descended texts in document order, returning exactly N
entries when every match's text is nonempty and strictly fewer when some
match's text is empty (empty texts are skipped). -/
theorem extract_text_count (html : List Node) (a v : String) (lvl : Nat) :
    (filter_response_texts html a v lvl
        = ((findAllForest a v html).map (matchText lvl)).filter (fun t => t ≠ ""))
    ∧ ((∀ e ∈ findAllForest a v html, matchText lvl e ≠ "") →
        (filter_response_texts html a v lvl).length = (findAllForest a v html).length)
    ∧ ((∃ e ∈ findAllForest a v html, matchText lvl e = "") →
        (filter_response_texts html a v lvl).length < (findAllForest a v html).length) := by
  refine ⟨filter_response_texts_eq html a v lvl, ?_, ?_⟩
  · intro hall
    rw [filter_response_texts_eq]
    have hfe : ((findAllForest a v html).map (matchText lvl)).filter (fun t => t ≠ "")
        = (findAllForest a v html).map (matchText lvl) := by
      refine List.filter_eq_self.mpr ?_
      intro t htmem
      rcases List.mem_map.mp htmem with ⟨e, hemem, rfl⟩
      simpa using hall e hemem
    rw [hfe, List.length_map]
  · intro hex
    rw [filter_response_texts_eq]
    have hlt : (((findAllForest a v html).map (matchText lvl)).filter
          (fun t => t ≠ "")).length < ((findAllForest a v html).map (matchText lvl)).length := by
      refine List.length_filter_lt_length_iff_exists.mpr ?_
      rcases hex with ⟨e, hemem, het⟩
      exact ⟨matchText lvl e, List.mem_map_of_mem _ hemem, by simp [het]⟩
    simpa [List.length_map] using hlt

/-- Witness for `extract_text_count`: a fragment with two matches and
both texts nonempty yields two entries; a fragment whose second match has
whitespace-only (hence empty trimmed) text yields strictly fewer than its
two matches. -/
theorem extract_text_count_witness :
    (filter_response_texts
        [Node.elem [("class", "x")] [Node.text "A"],
         Node.elem [("class", "x")] [Node.text "B"]] "class" "x" 0).length = 2
    ∧ (filter_response_texts
        [Node.elem [("class", "x")] [Node.text "A"],
         Node.elem [("class", "x")] [Node.text " "]] "class" "x" 0).length < 2 := by
  constructor
  · have h := (extract_text_count
        [Node.elem [("class", "x")] [Node.text "A"],
         Node.elem [("class", "x")] [Node.text "B"]] "class" "x" 0).2.1
    have hall : ∀ e ∈ findAllForest "class" "x"
        [Node.elem [("class", "x")] [Node.text "A"],
         Node.elem [("class", "x")] [Node.text "B"]], matchText 0 e ≠ "" := by
      simp [findAllForest, findAllNode, attrLookup, matchText, descend, get_text_strip,
        nodeStrings, forestStrings, trimChars, String.join]
    have hlen : (findAllForest "class" "x"
        [Node.elem [("class", "x")] [Node.text "A"],
         Node.elem [("class", "x")] [Node.text "B"]]).length = 2 := by
      simp [findAllForest, findAllNode, attrLookup]
    rw [h hall, hlen]
  · have h := (extract_text_count
        [Node.elem [("class", "x")] [Node.text "A"],
         Node.elem [("class", "x")] [Node.text " "]] "class" "x" 0).2.2
    have hex : ∃ e ∈ findAllForest "class" "x"
        [Node.elem [("class", "x")] [Node.text "A"],
         Node.elem [("class", "x")] [Node.text " "]], matchText 0 e = "" := by
      refine ⟨Node.elem [("class", "x")] [Node.text " "], ?_, ?_⟩
      · simp [findAllForest, findAllNode, attrLookup]
      · simp [matchText, descend, get_text_strip, nodeStrings, forestStrings,
          trimChars, String.join]
    have hlen : (findAllForest "class" "x"
        [Node.elem [("class", "x")] [Node.text "A"],
         Node.elem [("class", "x")] [Node.text " "]]).length = 2 := by
      simp [findAllForest, findAllNode, attrLookup]
    have := h hex
    rw [hlen] at this
    exact this

/-- Looking up `t` after a dict insert of key `k`: the new value when
`t = k`, the old binding otherwise. -/
theorem dictLookup_dictInsert (d : List (String × String)) (k v t : String) :
    dictLookup (dictInsert d k v) t = if t = k then some v else dictLookup d t := by
  induction d with
  | nil =>
      by_cases h : t = k
      · subst h; simp [dictInsert, dictLookup]
      · simp [dictInsert, dictLookup, h, Ne.symm h]
  | cons kv rest ih =>
      obtain ⟨k', v'⟩ := kv
      by_cases hk : k' = k
      · subst hk
        by_cases ht : t = k'
        · subst ht; simp [dictInsert, dictLookup]
        · simp [dictInsert, dictLookup, ht, Ne.symm ht]
      · by_cases ht : k' = t
        · subst ht
          simp [dictInsert, dictLookup, hk, Ne.symm hk]
        · simp [dictInsert, dictLookup, hk, ht, ih]

/-- A left fold that overwrites an optional accumulator at every element
passing `p` computes the image of the last passing element. -/
theorem foldl_last_option {α β : Type} (p : α → Prop) [DecidablePred p] (f : α → β) :
    ∀ (es : List α) (o : Option β),
      es.foldl (fun o e => if p e then some (f e) else o) o
        = ((es.filter (fun e => p e)).getLast?).elim o (fun e => some (f e)) := by
  intro es
  induction es with
  | nil => intro o; simp
  | cons e tl ih =>
      intro o
      rw [List.foldl_cons, ih, List.filter_cons]
      by_cases hp : p e
      · simp only [hp, if_true, decide_eq_true hp]
        cases htl : tl.filter (fun e => p e) with
        | nil => simp
        | cons b bs =>
            cases hbl : (b :: bs).getLast? with
            | none => simp at hbl
            | some x => simp [hbl]
      · simp [hp]

/-- C7: with `collectAttribute` given, `extract` maps each nonempty
trimmed text to the `collectAttribute` value read off the original
matched element (`attrGetD e`, not the descended node), and when several
matches yield the same trimmed text the one latest in document order
determines the stored value (the `getLast?` of the matching filter). -/
theorem filter_response_attrs_lookup (html : List Node) (af v : String) (lvl : Nat)
    (aAttr : String) (t : String) (ht : t ≠ "") :
    dictLookup (filter_response_attrs html af v lvl aAttr) t
      = (((findAllForest af v html).filter
            (fun e => matchText lvl e = t)).getLast?).map
          (fun e => attrGetD e aAttr) := by
  unfold filter_response_attrs
  generalize findAllForest af v html = es
  have key : ∀ (es : List Node) (acc : List (String × String)),
      dictLookup (es.foldl (fun acc e =>
          let s := matchText lvl e
          if s ≠ "" then dictInsert acc s (attrGetD e aAttr) else acc) acc) t
        = es.foldl (fun o e =>
            if matchText lvl e = t then some (attrGetD e aAttr) else o)
            (dictLookup acc t) := by
    intro es
    induction es with
    | nil => intro acc; simp
    | cons e tl ih =>
        intro acc
        rw [List.foldl_cons, List.foldl_cons, ih]
        congr 1
        show dictLookup (if matchText lvl e ≠ ""
              then dictInsert acc (matchText lvl e) (attrGetD e aAttr) else acc) t
          = if matchText lvl e = t then some (attrGetD e aAttr) else dictLookup acc t
        by_cases hs : matchText lvl e = ""
        · have hnt : ¬ matchText lvl e = t := by
            rw [hs]; exact fun hh => ht hh.symm
          simp [hs, hnt, Ne.symm ht]
        · rw [if_pos hs, dictLookup_dictInsert]
          by_cases hteq : t = matchText lvl e
          · simp [hteq]
          · have hteq' : ¬ matchText lvl e = t := fun hh => hteq hh.symm
            simp [hteq, hteq']
  rw [key es [], show dictLookup [] t = none from rfl,
    foldl_last_option (fun e => matchText lvl e = t) (fun e => attrGetD e aAttr) es none]
  cases (es.filter (fun e => matchText lvl e = t)).getLast? with
  | none => rfl
  | some x => rfl

/-- Witness for `filter_response_attrs_lookup`: two matches share the
trimmed text `X` with `value` attributes `1` then `2`; the stored value
is the later `2`. -/
theorem filter_response_attrs_lookup_witness :
    dictLookup (filter_response_attrs
      [Node.elem [("data-for", "f"), ("value", "1")] [Node.text "X"],
       Node.elem [("data-for", "f"), ("value", "2")] [Node.text "X"]]
      "data-for" "f" 0 "value") "X" = some "2" := by
  rw [filter_response_attrs_lookup _ _ _ _ _ _ (by decide)]
  simp only [findAllForest, findAllNode, attrLookup, matchText, descend, get_text_strip,
    nodeStrings, forestStrings, attrGetD]
  decide

/-! ## CSV row lemmas -/

/-- Splitting at the first space: `split(' ', 1)` on a character list starting with a space-free block
followed by a space cuts exactly at that first space. -/
theorem pySplit1Chars_append (b rest : List Char) (hb : ' ' ∉ b) :
    pySplit1Chars (b ++ ' ' :: rest) = some (b, rest) := by
  induction b with
  | nil => simp [pySplit1Chars]
  | cons c cs ih =>
      have hc : ¬ c = ' ' := by
        intro hcc; exact hb (by simp [hcc])
      have hcs : ' ' ∉ cs := fun hh => hb (List.mem_cons_of_mem _ hh)
      simp [pySplit1Chars, hc, ih hcs]

/-- Splitting finds nothing in a space-free character list. -/
theorem pySplit1Chars_none (l : List Char) (h : ' ' ∉ l) :
    pySplit1Chars l = none := by
  induction l with
  | nil => rfl
  | cons c cs ih =>
      have hc : ¬ c = ' ' := by
        intro hcc; exact h (by simp [hcc])
      have hcs : ' ' ∉ cs := fun hh => h (List.mem_cons_of_mem _ hh)
      simp [pySplit1Chars, hc, ih hcs]

/-- Stable insertion preserves membership. -/
theorem mem_insertLe {α : Type} (le : α → α → Bool) (x a : α) (l : List α) :
    a ∈ insertLe le x l ↔ a = x ∨ a ∈ l := by
  induction l with
  | nil => simp [insertLe]
  | cons y ys ih =>
      by_cases h : le x y
      · simp [insertLe, h]
      · simp only [insertLe, h, if_false, Bool.false_eq_true, List.mem_cons, ih]
        tauto

/-- The stable insertion sort preserves membership. -/
theorem mem_insSort {α : Type} (le : α → α → Bool) (a : α) (l : List α) :
    a ∈ insSort le l ↔ a ∈ l := by
  induction l with
  | nil => simp [insSort]
  | cons y ys ih =>
      rw [show insSort le (y :: ys) = insertLe le y (insSort le ys) from rfl,
        mem_insertLe, ih]
      simp

/-- C8 counterexample: the display name `Acme\tPhone` contains a tab but
no space, so the code keeps the whole name as both Brand and Model; its
first whitespace-delimited token `Acme` is not the Brand the claim
predicts, and the Model is not the remainder after that token. -/
theorem csv_row_for_counterexample :
    csv_row_for "ChipX" "Acme\tPhone"
      = { processor := "ChipX", brand := "Acme\tPhone", model := "Acme\tPhone",
          full_name := "Acme\tPhone" }
    ∧ ¬ ((csv_row_for "ChipX" "Acme\tPhone").brand = "Acme") := by
  constructor
  · rfl
  · decide

/-- C8 (amended): the persisted row splits the display name at its first
space character — Brand is the prefix before the first space and Model
the suffix after it; a name containing no space keeps the whole name as
both Brand and Model; Full_Name is always the original name, and every
extracted display name contributes its row to the appended batch.  In
particular `Acme Phone 1` yields Brand `Acme`, Model `Phone 1`. -/
theorem csv_row_decomposition (proc : String) (b rest : List Char) (hb : ' ' ∉ b) :
    (csv_row_for proc (String.mk (b ++ ' ' :: rest))
      = { processor := proc, brand := String.mk b, model := String.mk rest,
          full_name := String.mk (b ++ ' ' :: rest) })
    ∧ (∀ name : String, ' ' ∉ name.data →
        csv_row_for proc name
          = { processor := proc, brand := name, model := name, full_name := name })
    ∧ (∀ (models : List String) (name : String), name ∈ models →
        csv_row_for proc name ∈ append_processor_to_csv proc models) := by
  refine ⟨?_, ?_, ?_⟩
  · simp [csv_row_for, pySplit1, pySplit1Chars_append b rest hb]
  · intro name hname
    simp [csv_row_for, pySplit1, pySplit1Chars_none name.data hname]
  · intro models name hmem
    have hne : ¬ models = [] := by
      intro hnil; rw [hnil] at hmem; exact (List.not_mem_nil name) hmem
    unfold append_processor_to_csv
    rw [if_neg hne, mem_insSort]
    exact List.mem_map_of_mem _ ((mem_insSort _ _ _).mpr (List.mem_dedup.mpr hmem))

/-- Witness for `csv_row_decomposition`: the display name `Acme Phone 1`
yields Brand `Acme`, Model `Phone 1`, Full_Name the original name. -/
theorem csv_row_decomposition_witness :
    ' ' ∉ "Acme".data
    ∧ csv_row_for "ChipX" "Acme Phone 1"
        = { processor := "ChipX", brand := "Acme", model := "Phone 1",
            full_name := "Acme Phone 1" } := by
  refine ⟨by decide, ?_⟩
  have h := (csv_row_decomposition "ChipX" "Acme".data "Phone 1".data (by decide)).1
  have h1 : String.mk ("Acme".data ++ ' ' :: "Phone 1".data) = "Acme Phone 1" := by decide
  have h2 : String.mk "Acme".data = "Acme" := by decide
  have h3 : String.mk "Phone 1".data = "Phone 1" := by decide
  rw [h1, h2, h3] at h
  exact h

/-! ## Sink lemmas -/

/-- Re-inserting the same value under the same key is a no-op. -/
theorem assocInsert_idem (l : List (Int × List Node)) (k : Int) (v : List Node) :
    assocInsert (assocInsert l k v) k v = assocInsert l k v := by
  induction l with
  | nil => simp [assocInsert]
  | cons kv rest ih =>
      obtain ⟨k', v'⟩ := kv
      by_cases h : k' = k
      · subst h; simp [assocInsert]
      · simp [assocInsert, h, ih]

/-- A Sink feed always stores the content under the page index. -/
theorem sink_record_pages (csvE : Bool) (proc : String) (pg : Int)
    (content : List Node) (s : SinkState) :
    (sink_record csvE proc pg content s).pages = assocInsert s.pages pg content := by
  unfold sink_record
  dsimp only
  split_ifs <;> rfl

/-- A Sink feed appends exactly the page's batch (empty when CSV saving
is off, the content is empty, or the page yields no models). -/
theorem sink_record_csvRows (csvE : Bool) (proc : String) (pg : Int)
    (content : List Node) (s : SinkState) :
    (sink_record csvE proc pg content s).csvRows
      = s.csvRows
        ++ (if csvE && !content.isEmpty then
              (if filter_response_texts content "class" "device-name" 1 ≠ [] then
                append_processor_to_csv proc
                  (filter_response_texts content "class" "device-name" 1)
               else [])
            else []) := by
  unfold sink_record
  dsimp only
  split_ifs with h1 h2 <;> simp

/-- C1 counterexample: feeding the identical one-model page twice for the
same processor and page index doubles the persisted rows — after one feed
the CSV holds one row, after the second feed two — so re-running the same
page does not leave the persisted output unchanged. -/
theorem sink_record_counterexample :
    ((sink_record true "ChipX" 0
        [Node.elem [("class", "device-name")] [Node.text "Acme Phone 1"]]
        (sink_record true "ChipX" 0
          [Node.elem [("class", "device-name")] [Node.text "Acme Phone 1"]]
          ⟨[], []⟩)).csvRows).length = 2
    ∧ ((sink_record true "ChipX" 0
        [Node.elem [("class", "device-name")] [Node.text "Acme Phone 1"]]
        ⟨[], []⟩).csvRows).length = 1 := by
  have hm : filter_response_texts
      [Node.elem [("class", "device-name")] [Node.text "Acme Phone 1"]]
      "class" "device-name" 1 = ["Acme Phone 1"] := by
    rw [filter_response_texts_eq]
    simp only [findAllForest, findAllNode, attrLookup, matchText, descend, childrenOf,
      get_text_strip, nodeStrings, forestStrings]
    decide
  simp only [sink_record_csvRows, hm]
  decide

/-- C1 (amended): feeding identical page content a second time for the
same processor and page index leaves the in-memory page store — and hence
the `snapshot` — unchanged (the per-page dict entry is overwritten with
the same value), but appends the page's deduplicated batch of rows to the
persisted CSV again: `append_processor_to_csv` deduplicates only within
the batch it is given (`sorted(set(proc_models))`), not against the full
set of records already accumulated for the processor. -/
theorem sink_record_refeed (csvE : Bool) (proc : String) (pg : Int)
    (content : List Node) (s : SinkState) :
    ((sink_record csvE proc pg content (sink_record csvE proc pg content s)).pages
        = (sink_record csvE proc pg content s).pages)
    ∧ (snapshot (sink_record csvE proc pg content (sink_record csvE proc pg content s))
        = snapshot (sink_record csvE proc pg content s))
    ∧ ((sink_record csvE proc pg content (sink_record csvE proc pg content s)).csvRows
        = (sink_record csvE proc pg content s).csvRows
          ++ (if csvE && !content.isEmpty then
                (if filter_response_texts content "class" "device-name" 1 ≠ [] then
                  append_processor_to_csv proc
                    (filter_response_texts content "class" "device-name" 1)
                 else [])
              else [])) := by
  have hpages : (sink_record csvE proc pg content
        (sink_record csvE proc pg content s)).pages
      = (sink_record csvE proc pg content s).pages := by
    simp only [sink_record_pages]
    rw [assocInsert_idem]
  refine ⟨hpages, ?_, ?_⟩
  · unfold snapshot
    rw [hpages]
  · exact sink_record_csvRows csvE proc pg content (sink_record csvE proc pg content s)

/-! ## Paginator lemmas and claims -/

/-- C4: a success response whose result count is zero ends the Query
right after that single fetch: only the total-request counter is
incremented (neither pages-fetched nor errors nor rate-limited), the Sink
is untouched, exactly one request was issued (at the given page index),
and no further stubbed response is consumed. -/
theorem fill_zero_results (pn pid band : String) (csvE : Bool) (j : PageJson)
    (rest : List FetchResponse) (p : Int) (st : ProgressData) (sink : SinkState)
    (reqs : List (Int × String)) (h0 : j.page_results = 0) :
    fill_proc_pages pn pid band csvE (⟨200, some j⟩ :: rest) p st sink reqs
      = ⟨{ st with total_requests := st.total_requests + 1 }, sink,
         reqs ++ [(p, url_for pid band p)]⟩ := by
  simp [fill_proc_pages, h0]

/-- Witness for `fill_zero_results`: a concrete zero-result success ends
after one request with only the total-request counter incremented. -/
theorem fill_zero_results_witness :
    fill_proc_pages "ChipX" "123" "" true [⟨200, some ⟨0, [], ""⟩⟩] 0
        ⟨0, 0, 0, 0⟩ ⟨[], []⟩ []
      = ⟨⟨0, 1, 0, 0⟩, ⟨[], []⟩,
         [((0 : Int),
           "https://www.kimovil.com/en/compare-smartphones/f_dpg+id.123?xhr=1")]⟩ := by
  rw [fill_zero_results "ChipX" "123" "" true ⟨0, [], ""⟩ [] 0 ⟨0, 0, 0, 0⟩ ⟨[], []⟩ [] rfl]
  rfl

/-- C5: a 429 response increments the rate-limit counter and retries at
the same page index, so the response sequence RateLimited, RateLimited,
Success (with no next-page pointer) issues exactly three requests, all at
the same page index, records exactly two rate-limit events, and records
no error. -/
theorem fill_rate_limited_retry (pn pid band : String) (csvE : Bool)
    (b1 b2 : Option PageJson) (j : PageJson) (p : Int) (st : ProgressData)
    (sink : SinkState) (hnext : j.next_page_url = "") :
    ((fill_proc_pages pn pid band csvE [⟨429, b1⟩, ⟨429, b2⟩, ⟨200, some j⟩]
        p st sink []).requests
      = [(p, url_for pid band p), (p, url_for pid band p), (p, url_for pid band p)])
    ∧ ((fill_proc_pages pn pid band csvE [⟨429, b1⟩, ⟨429, b2⟩, ⟨200, some j⟩]
        p st sink []).st.rate_limited = st.rate_limited + 2)
    ∧ ((fill_proc_pages pn pid band csvE [⟨429, b1⟩, ⟨429, b2⟩, ⟨200, some j⟩]
        p st sink []).st.total_requests = st.total_requests + 3)
    ∧ ((fill_proc_pages pn pid band csvE [⟨429, b1⟩, ⟨429, b2⟩, ⟨200, some j⟩]
        p st sink []).st.errors = st.errors) := by
  by_cases h0 : j.page_results = 0
  · simp [fill_proc_pages, h0, hnext]
  · simp [fill_proc_pages, h0, hnext]

/-- Witness for `fill_rate_limited_retry`: the concrete sequence
RateLimited, RateLimited, zero-result Success gives three requests and
two rate-limit events. -/
theorem fill_rate_limited_retry_witness :
    ((fill_proc_pages "ChipX" "123" "" true
        [⟨429, none⟩, ⟨429, none⟩, ⟨200, some ⟨0, [], ""⟩⟩]
        0 ⟨0, 0, 0, 0⟩ ⟨[], []⟩ []).requests).length = 3
    ∧ (fill_proc_pages "ChipX" "123" "" true
        [⟨429, none⟩, ⟨429, none⟩, ⟨200, some ⟨0, [], ""⟩⟩]
        0 ⟨0, 0, 0, 0⟩ ⟨[], []⟩ []).st.rate_limited = 2 := by
  have h := fill_rate_limited_retry "ChipX" "123" "" true none none ⟨0, [], ""⟩ 0
      ⟨0, 0, 0, 0⟩ ⟨[], []⟩ rfl
  exact ⟨by rw [h.1]; rfl, by rw [h.2.1]⟩

/-- One successful page with a parseable next-page pointer: the Paginator
stores the page, feeds the Sink, and re-enters fetching at index
`suffix - 1`. -/
theorem fill_success_next (pn pid band : String) (csvE : Bool) (j : PageJson)
    (rest : List FetchResponse) (p : Int) (st : ProgressData) (sink : SinkState)
    (reqs : List (Int × String)) (n : Int)
    (h0 : j.page_results ≠ 0)
    (hp : j.next_page_url ≠ "" ∧ containsDot j.next_page_url)
    (hn : pyInt? (last_dot_component j.next_page_url) = some n) :
    fill_proc_pages pn pid band csvE (⟨200, some j⟩ :: rest) p st sink reqs
      = fill_proc_pages pn pid band csvE rest (n - 1)
          { st with total_requests := st.total_requests + 1,
                    pages_fetched := st.pages_fetched + 1 }
          (sink_record csvE pn p j.content sink)
          (reqs ++ [(p, url_for pid band p)]) := by
  simp [fill_proc_pages, h0, hp, hn]

/-- Whatever the single stubbed response is, exactly one request is
issued, at the given page index. -/
theorem fill_single_requests (pn pid band : String) (csvE : Bool) (r : FetchResponse)
    (p : Int) (st : ProgressData) (sink : SinkState) (reqs : List (Int × String)) :
    (fill_proc_pages pn pid band csvE [r] p st sink reqs).requests
      = reqs ++ [(p, url_for pid band p)] := by
  obtain ⟨s, b⟩ := r
  by_cases h429 : s = 429
  · subst h429; simp [fill_proc_pages]
  · by_cases h200 : s = 200
    · subst h200
      cases b with
      | none => simp [fill_proc_pages, h429]
      | some j =>
          by_cases h0 : j.page_results = 0
          · simp [fill_proc_pages, h429, h0]
          · by_cases hnp : j.next_page_url ≠ "" ∧ containsDot j.next_page_url
            · cases hpi : pyInt? (last_dot_component j.next_page_url) with
              | none => simp [fill_proc_pages, h429, h0, hnp, hpi]
              | some n => simp [fill_proc_pages, h429, h0, hnp, hpi]
            · simp [fill_proc_pages, h429, h0, hnp]
    · simp [fill_proc_pages, h429, h200]

/-- C2: a successful page whose next-page pointer ends in an integer
suffix `n` makes the Paginator re-enter fetching at index `n - 1`, so the
run performs exactly two fetches, the second at index `n - 1`; and the URL
built for any page index `p > 0` carries the page component `page.(p+1)`,
so the second request's URL carries `page.n` whenever `n - 1 > 0`. -/
theorem fill_pagination_continuation (pn pid band : String) (csvE : Bool)
    (j : PageJson) (r₂ : FetchResponse) (st : ProgressData) (sink : SinkState)
    (n : Int)
    (h0 : j.page_results ≠ 0)
    (hp : j.next_page_url ≠ "" ∧ containsDot j.next_page_url)
    (hn : pyInt? (last_dot_component j.next_page_url) = some n) :
    ((fill_proc_pages pn pid band csvE [⟨200, some j⟩, r₂] 0 st sink []).requests
      = [(0, url_for pid band 0), (n - 1, url_for pid band (n - 1))])
    ∧ (∀ q : Int, 0 < q →
        url_for pid band q
          = "https://www.kimovil.com/en/compare-smartphones/f_dpg+id." ++ pid
            ++ (if band ≠ "" then "," ++ band else "")
            ++ ",page." ++ toString (q + 1) ++ "?xhr=1")
    ∧ (2 ≤ n →
        url_for pid band (n - 1)
          = "https://www.kimovil.com/en/compare-smartphones/f_dpg+id." ++ pid
            ++ (if band ≠ "" then "," ++ band else "")
            ++ ",page." ++ toString n ++ "?xhr=1") := by
  have hcomp : ∀ q : Int, 0 < q →
      url_for pid band q
        = "https://www.kimovil.com/en/compare-smartphones/f_dpg+id." ++ pid
          ++ (if band ≠ "" then "," ++ band else "")
          ++ ",page." ++ toString (q + 1) ++ "?xhr=1" := by
    intro q hq
    simp [url_for, hq, String.append_assoc]
  refine ⟨?_, hcomp, ?_⟩
  · rw [fill_success_next pn pid band csvE j [r₂] 0 st sink [] n h0 hp hn,
      fill_single_requests]
    simp
  · intro h2n
    have := hcomp (n - 1) (by omega)
    rwa [show n - 1 + 1 = n by omega] at this

/-- Witness for `fill_pagination_continuation`: a pointer ending in `.3`
makes the second request hit index 2 with page component `page.3`. -/
theorem fill_pagination_continuation_witness :
    (fill_proc_pages "ChipX" "123" "" false
        [⟨200, some ⟨1, [], "a.3"⟩⟩, ⟨200, some ⟨0, [], ""⟩⟩]
        0 ⟨0, 0, 0, 0⟩ ⟨[], []⟩ []).requests
      = [((0 : Int), "https://www.kimovil.com/en/compare-smartphones/f_dpg+id.123?xhr=1"),
         ((2 : Int),
          "https://www.kimovil.com/en/compare-smartphones/f_dpg+id.123,page.3?xhr=1")] := by
  have h := (fill_pagination_continuation "ChipX" "123" "" false ⟨1, [], "a.3"⟩
      ⟨200, some ⟨0, [], ""⟩⟩ ⟨0, 0, 0, 0⟩ ⟨[], []⟩ 3
      (by decide) (by decide) (by decide)).1
  rw [h]
  rfl

/-- C3 counterexample: a malformed next-page pointer `a.b` (it contains a
`'.'` but no numeric suffix) makes `int()` raise; the handler records the
exception, so the error counter ends at 1 where the claim requires it to
stay 0. -/
theorem fill_malformed_pointer_counterexample :
    (fill_proc_pages "ChipX" "123" "" false
        [⟨200, some ⟨1, [], "a.b"⟩⟩] 0 ⟨0, 0, 0, 0⟩ ⟨[], []⟩ []).st.errors = 1 := by
  rfl

/-- C3 (amended): after a successful page, a next-page pointer that is
empty or has no `'.'` ends the Query successfully — no error is recorded
and no further fetch is issued; but a pointer that contains `'.'` whose
final component is not a valid integer makes `int()` raise `ValueError`,
which the catch-all handler records by incrementing the error counter
once (no exception escapes, and pagination still stops). -/
theorem fill_malformed_pointer (pn pid band : String) (csvE : Bool) (j : PageJson)
    (rest : List FetchResponse) (p : Int) (st : ProgressData) (sink : SinkState)
    (reqs : List (Int × String)) (h0 : j.page_results ≠ 0) :
    ((¬ (j.next_page_url ≠ "" ∧ containsDot j.next_page_url)) →
      fill_proc_pages pn pid band csvE (⟨200, some j⟩ :: rest) p st sink reqs
        = ⟨⟨st.pages_fetched + 1, st.total_requests + 1, st.rate_limited, st.errors⟩,
           sink_record csvE pn p j.content sink,
           reqs ++ [(p, url_for pid band p)]⟩)
    ∧ ((j.next_page_url ≠ "" ∧ containsDot j.next_page_url) →
       pyInt? (last_dot_component j.next_page_url) = none →
      fill_proc_pages pn pid band csvE (⟨200, some j⟩ :: rest) p st sink reqs
        = ⟨⟨st.pages_fetched + 1, st.total_requests + 1, st.rate_limited, st.errors + 1⟩,
           sink_record csvE pn p j.content sink,
           reqs ++ [(p, url_for pid band p)]⟩) := by
  constructor
  · intro hno
    simp [fill_proc_pages, h0, hno]
  · intro hyes hparse
    simp [fill_proc_pages, h0, hyes, hparse]

/-- Witness for `fill_malformed_pointer`: a pointer with no `'.'` ends the
Query with no error; the pointer `a.b` ends it with one recorded error. -/
theorem fill_malformed_pointer_witness :
    (fill_proc_pages "ChipX" "123" "" false
        [⟨200, some ⟨1, [], "nodot"⟩⟩] 0 ⟨0, 0, 0, 0⟩ ⟨[], []⟩ []).st.errors = 0
    ∧ (fill_proc_pages "ChipX" "123" "" false
        [⟨200, some ⟨1, [], "a.b"⟩⟩] 0 ⟨0, 0, 0, 0⟩ ⟨[], []⟩ []).st.errors = 1 := by
  constructor
  · have h := (fill_malformed_pointer "ChipX" "123" "" false ⟨1, [], "nodot"⟩ [] 0
        ⟨0, 0, 0, 0⟩ ⟨[], []⟩ [] (by decide)).1 (by decide)
    rw [h]
  · have h := (fill_malformed_pointer "ChipX" "123" "" false ⟨1, [], "a.b"⟩ [] 0
        ⟨0, 0, 0, 0⟩ ⟨[], []⟩ [] (by decide)).2 (by decide) (by decide)
    rw [h]

/-- C10 counterexample: one request that succeeds (page stored, so
`pages_fetched` is incremented) and then raises on the malformed numeric
suffix `a.b` (so `errors` is also incremented) gives total 1 but
pages + rate-limited + errors = 2, violating the claimed invariant. -/
theorem fill_counters_counterexample :
    ((fill_proc_pages "ChipX" "123" "" false [⟨200, some ⟨1, [], "a.b"⟩⟩] 0
        ⟨0, 0, 0, 0⟩ ⟨[], []⟩ []).st.total_requests = 1)
    ∧ ((fill_proc_pages "ChipX" "123" "" false [⟨200, some ⟨1, [], "a.b"⟩⟩] 0
        ⟨0, 0, 0, 0⟩ ⟨[], []⟩ []).st.pages_fetched = 1)
    ∧ ((fill_proc_pages "ChipX" "123" "" false [⟨200, some ⟨1, [], "a.b"⟩⟩] 0
        ⟨0, 0, 0, 0⟩ ⟨[], []⟩ []).st.rate_limited = 0)
    ∧ ((fill_proc_pages "ChipX" "123" "" false [⟨200, some ⟨1, [], "a.b"⟩⟩] 0
        ⟨0, 0, 0, 0⟩ ⟨[], []⟩ []).st.errors = 1)
    ∧ ¬ ((fill_proc_pages "ChipX" "123" "" false [⟨200, some ⟨1, [], "a.b"⟩⟩] 0
          ⟨0, 0, 0, 0⟩ ⟨[], []⟩ []).st.pages_fetched
        + (fill_proc_pages "ChipX" "123" "" false [⟨200, some ⟨1, [], "a.b"⟩⟩] 0
          ⟨0, 0, 0, 0⟩ ⟨[], []⟩ []).st.rate_limited
        + (fill_proc_pages "ChipX" "123" "" false [⟨200, some ⟨1, [], "a.b"⟩⟩] 0
          ⟨0, 0, 0, 0⟩ ⟨[], []⟩ []).st.errors
        ≤ (fill_proc_pages "ChipX" "123" "" false [⟨200, some ⟨1, [], "a.b"⟩⟩] 0
          ⟨0, 0, 0, 0⟩ ⟨[], []⟩ []).st.total_requests) := by
  exact ⟨rfl, rfl, rfl, rfl, by decide⟩

/-- C10 (amended): every attempt increments the total-request counter
exactly once and at most one of pages-fetched / rate-limited, and at most
one of rate-limited / errors, so the invariants
`pages_fetched + rate_limited ≤ total_requests` and
`rate_limited + errors ≤ total_requests` are preserved by any pagination
run; the three-way bound `pages_fetched + rate_limited + errors ≤
total_requests` can fail, because a request whose page is stored and
whose next-page suffix then fails to parse increments both pages-fetched
and errors (see the counterexample). -/
theorem fill_counter_invariants (pn pid band : String) (csvE : Bool) :
    ∀ (responses : List FetchResponse) (p : Int) (st : ProgressData)
      (sink : SinkState) (reqs : List (Int × String)),
      st.pages_fetched + st.rate_limited ≤ st.total_requests →
      st.rate_limited + st.errors ≤ st.total_requests →
      ((fill_proc_pages pn pid band csvE responses p st sink reqs).st.pages_fetched
          + (fill_proc_pages pn pid band csvE responses p st sink reqs).st.rate_limited
        ≤ (fill_proc_pages pn pid band csvE responses p st sink reqs).st.total_requests)
      ∧ ((fill_proc_pages pn pid band csvE responses p st sink reqs).st.rate_limited
          + (fill_proc_pages pn pid band csvE responses p st sink reqs).st.errors
        ≤ (fill_proc_pages pn pid band csvE responses p st sink reqs).st.total_requests) := by
  intro responses
  induction responses with
  | nil =>
      intro p st sink reqs h1 h2
      exact ⟨h1, h2⟩
  | cons r tl ih =>
      intro p st sink reqs h1 h2
      obtain ⟨s, b⟩ := r
      obtain ⟨pf, tr, rl, er⟩ := st
      dsimp only at h1 h2
      by_cases h429 : s = 429
      · subst h429
        have hrec := ih p ⟨pf, tr + 1, rl + 1, er⟩ sink
          (reqs ++ [(p, url_for pid band p)]) (by dsimp only; omega) (by dsimp only; omega)
        simpa [fill_proc_pages] using hrec
      · by_cases h200 : s = 200
        · subst h200
          cases b with
          | none =>
              constructor <;> (simp [fill_proc_pages, h429]; omega)
          | some j =>
              by_cases h0 : j.page_results = 0
              · constructor <;> (simp [fill_proc_pages, h429, h0]; omega)
              · by_cases hnp : j.next_page_url ≠ "" ∧ containsDot j.next_page_url
                · cases hpi : pyInt? (last_dot_component j.next_page_url) with
                  | none =>
                      constructor <;>
                        (simp [fill_proc_pages, h429, h0, hnp, hpi]; omega)
                  | some n =>
                      have hrec := ih (n - 1) ⟨pf + 1, tr + 1, rl, er⟩
                        (sink_record csvE pn p j.content sink)
                        (reqs ++ [(p, url_for pid band p)])
                        (by dsimp only; omega) (by dsimp only; omega)
                      simpa [fill_proc_pages, h429, h0, hnp, hpi] using hrec
                · constructor <;> (simp [fill_proc_pages, h429, h0, hnp]; omega)
        · constructor <;> (simp [fill_proc_pages, h429, h200]; omega)

/-- Witness for `fill_counter_invariants`: on the counterexample run the
two amended invariants do hold (1 + 0 ≤ 1 and 0 + 1 ≤ 1). -/
theorem fill_counter_invariants_witness :
    ((fill_proc_pages "ChipX" "123" "" false [⟨200, some ⟨1, [], "a.b"⟩⟩] 0
        ⟨0, 0, 0, 0⟩ ⟨[], []⟩ []).st.pages_fetched
      + (fill_proc_pages "ChipX" "123" "" false [⟨200, some ⟨1, [], "a.b"⟩⟩] 0
        ⟨0, 0, 0, 0⟩ ⟨[], []⟩ []).st.rate_limited
      ≤ (fill_proc_pages "ChipX" "123" "" false [⟨200, some ⟨1, [], "a.b"⟩⟩] 0
        ⟨0, 0, 0, 0⟩ ⟨[], []⟩ []).st.total_requests)
    ∧ ((fill_proc_pages "ChipX" "123" "" false [⟨200, some ⟨1, [], "a.b"⟩⟩] 0
        ⟨0, 0, 0, 0⟩ ⟨[], []⟩ []).st.rate_limited
      + (fill_proc_pages "ChipX" "123" "" false [⟨200, some ⟨1, [], "a.b"⟩⟩] 0
        ⟨0, 0, 0, 0⟩ ⟨[], []⟩ []).st.errors
      ≤ (fill_proc_pages "ChipX" "123" "" false [⟨200, some ⟨1, [], "a.b"⟩⟩] 0
        ⟨0, 0, 0, 0⟩ ⟨[], []⟩ []).st.total_requests) :=
  fill_counter_invariants "ChipX" "123" "" false [⟨200, some ⟨1, [], "a.b"⟩⟩] 0
    ⟨0, 0, 0, 0⟩ ⟨[], []⟩ [] (by decide) (by decide)

/-! ## Orchestrator fail-fast claim -/

/-- C9: when at least one configured processor name is absent from the
discovered catalog, the run aborts with non-zero exit code 1, the
reported list is the full list of offending names (every absent
configured name is in it, in configuration order), and at abort time zero
paginated fetches have been issued and zero output rows written. -/
theorem main_resolve_fail_fast (processors : List String)
    (catalog : List (String × String)) (q : String)
    (hq : q ∈ processors) (habs : inCatalog catalog q = false) :
    (main_resolve processors catalog
      = MainOutcome.abort 1 (missing_processors processors catalog) 0 0)
    ∧ (∀ r ∈ processors, inCatalog catalog r = false →
        r ∈ missing_processors processors catalog)
    ∧ q ∈ missing_processors processors catalog
    ∧ (1 : Nat) ≠ 0 := by
  have hmem : q ∈ missing_processors processors catalog := by
    unfold missing_processors
    refine List.mem_filter.mpr ⟨hq, ?_⟩
    simp [habs]
  have hne : ¬ missing_processors processors catalog = [] := by
    intro hnil
    rw [hnil] at hmem
    exact (List.not_mem_nil q) hmem
  refine ⟨?_, ?_, hmem, by decide⟩
  · unfold main_resolve
    rw [if_pos hne]
  · intro r hr hrabs
    unfold missing_processors
    refine List.mem_filter.mpr ⟨hr, ?_⟩
    simp [hrabs]

/-- Witness for `main_resolve_fail_fast`: configured `Unknown Chip` is
absent from the catalog, so the run aborts with exit
code 1 reporting exactly `Unknown Chip`, zero fetches, zero rows
(catalog maps ChipX to 123). -/
theorem main_resolve_fail_fast_witness :
    main_resolve ["ChipX", "Unknown Chip"] [("ChipX", "123")]
      = MainOutcome.abort 1 ["Unknown Chip"] 0 0 := by
  have h := (main_resolve_fail_fast ["ChipX", "Unknown Chip"] [("ChipX", "123")]
      "Unknown Chip" (by decide) (by decide)).1
  rw [h]
  rfl
